import Mathlib

/-!
# cf-terraforming: the `import` command

A shallow embedding of `internal/app/cf-terraforming/cmd/import.go`:
the format table `resourceImportStringFormats`, the line builder
`buildCompositeID` and the driving loop of `runImport`.

Go strings are modelled by Lean strings.  Go compares bytes; every token the
replacer looks for is ASCII, and an ASCII byte never occurs inside a multi-byte
UTF-8 sequence, so on well-formed UTF-8 text matching characters and matching
bytes agree.
-/

namespace CfTerraforming

/-! ## Data model -/

/-- The map `resourceImportStringFormats` of import.go (lines 18-43): resource
type to composite-ID template.  The keys are pairwise distinct, as in a Go map
literal, so looking up the first entry with a given key is the map read. -/
def resourceImportStringFormats : List (String × String) :=
  [ ("cloudflare_access_rule",           ":identifier_type/:identifier_value/:id"),
    ("cloudflare_account_member",        ":account_id/:id"),
    ("cloudflare_argo",                  ":zone_id/argo"),
    ("cloudflare_argo_tunnel",           ":account_id/:id"),
    ("cloudflare_byo_ip_prefix",         ":id"),
    ("cloudflare_certificate_pack",      ":zone_id/:id"),
    ("cloudflare_custom_pages",          ":identifier_type/:identifier_value/:id"),
    ("cloudflare_filter",                ":zone_id/:id"),
    ("cloudflare_firewall_rule",         ":zone_id/:id"),
    ("cloudflare_healthcheck",           ":zone_id/:id"),
    ("cloudflare_custom_hostname",       ":zone_id/:id"),
    ("cloudflare_custom_ssl",            ":zone_id/:id"),
    ("cloudflare_ip_list",               ":account_id/:id"),
    ("cloudflare_origin_ca_certificate", ":id"),
    ("cloudflare_page_rule",             ":zone_id/:id"),
    ("cloudflare_rate_limit",            ":zone_id/:id"),
    ("cloudflare_record",                ":zone_id/:id"),
    ("cloudflare_spectrum_application",  ":zone_id/:id"),
    ("cloudflare_waf_override",          ":zone_id/:id"),
    ("cloudflare_waiting_room",          ":zone_id/:id"),
    ("cloudflare_worker_route",          ":zone_id/:id"),
    ("cloudflare_workers_kv_namespace",  ":id"),
    ("cloudflare_zone",                  ":id"),
    ("cloudflare_zone_lockdown",         ":zone_id/:id") ]

/-- The map read `resourceImportStringFormats[resourceType]` with its `ok`
flag: `none` when the key is absent. -/
def importFormat (resourceType : String) : Option String :=
  (resourceImportStringFormats.find? (fun e => e.1 == resourceType)).map Prod.snd

/-- The keys of the format table. -/
def formatKeys : List String :=
  resourceImportStringFormats.map Prod.fst

/-- The package-level variables `buildCompositeID` reads; they are set by the
command-line flags, outside import.go. -/
structure Config where
  accountID : String
  zoneID : String
  terraformImportCmdPrefix : String
  terraformResourceNamePrefix : String

/-! ## `strings.NewReplacer(...).Replace`

The generic replacer of the Go standard library, which `NewReplacer` builds
whenever some old string is longer than one byte.  It walks the input from left
to right; at each position it takes, among the pairs whose old string is a
prefix of the remaining input, the one given first in the argument list, writes
its new string and continues after the matched old string; where no old string
matches it copies one character.  Written text is never read again.  The model
covers replacers all of whose old strings are non-empty, as the five of
`buildCompositeID` are. -/

/-- The trie lookup of the generic replacer: the first pair, in argument order,
whose old string is a prefix of `s`. -/
def replacerLookup (oldnew : List (String × String)) (s : List Char) :
    Option (String × String) :=
  oldnew.find? (fun p => p.1.data.isPrefixOf s)

/-- The scanning loop of the generic replacer on the characters still to read.
The second argument counts the characters of a matched old string that remain
to be stepped over (Go advances the index by the key length in one step). -/
def replaceFrom (oldnew : List (String × String)) : List Char → Nat → List Char
  | [], _ => []
  | _ :: cs, k + 1 => replaceFrom oldnew cs k
  | c :: cs, 0 =>
    match replacerLookup oldnew (c :: cs) with
    | some p => p.2.data ++ replaceFrom oldnew cs (p.1.length - 1)
    | none => c :: replaceFrom oldnew cs 0

/-- The result of `strings.NewReplacer(oldnew...).Replace(s)`. -/
def replacerReplace (oldnew : List (String × String)) (s : String) : String :=
  ⟨replaceFrom oldnew s.data 0⟩

/-! ## `buildCompositeID` -/

/-- The five placeholder tokens, in the order `buildCompositeID` gives them to
the replacer. -/
def placeholderTokens : List String :=
  [":identifier_type", ":identifier_value", ":zone_id", ":account_id", ":id"]

/-- The variable `identiferType` of `buildCompositeID` (import.go lines
385-394), spelled as in the source. -/
def identiferType (cfg : Config) : String :=
  if cfg.accountID ≠ "" then "account" else "zone"

/-- The variable `identiferValue` of `buildCompositeID` (import.go lines
385-394), spelled as in the source. -/
def identiferValue (cfg : Config) : String :=
  if cfg.accountID ≠ "" then cfg.accountID else cfg.zoneID

/-- The argument list given to `strings.NewReplacer` in `buildCompositeID`
(import.go lines 398-404), in the order of the source. -/
def compositeReplacer (cfg : Config) (resourceID : String) : List (String × String) :=
  [ (":identifier_type", identiferType cfg),
    (":identifier_value", identiferValue cfg),
    (":zone_id", cfg.zoneID),
    (":account_id", cfg.accountID),
    (":id", resourceID) ]

/-- The line before substitution: the `fmt.Sprintf("%s %s.%s_%s %s", ...)` of
import.go line 397 followed by the newline of line 405. -/
def rawLine (cfg : Config) (resourceType resourceID format : String) : String :=
  "" ++ (cfg.terraformImportCmdPrefix ++ " " ++ resourceType ++ "." ++
    cfg.terraformResourceNamePrefix ++ "_" ++ resourceID ++ " " ++ format) ++ "\n"

/-- The function `buildCompositeID` of import.go (lines 380-408).  `log.Fatalf`
ends the process; it is the `error` result, carrying the logged message. -/
def buildCompositeID (cfg : Config) (resourceType resourceID : String) :
    Except String String :=
  match importFormat resourceType with
  | none => .error (resourceType ++ " does not have an import format defined")
  | some format =>
    .ok (replacerReplace (compositeReplacer cfg resourceID)
      (rawLine cfg resourceType resourceID format))

/-! ## `runImport` -/

/-- A field value of a decoded JSON object, as far as `runImport` tells values
apart: a JSON string, or any other value (number, boolean, null, array,
object), on which the assertion `.(string)` fails. -/
inductive JsonValue where
  | string (s : String)
  | other

/-- An element of `jsonStructData` (`[]interface{}`): a JSON object, a
`map[string]interface{}` given by its fields, or any other value, on which the
assertion `.(map[string]interface{})` fails. -/
inductive JsonDatum where
  | object (fields : List (String × JsonValue))
  | other

/-- The expression `data.(map[string]interface{})["id"].(string)` of import.go
line 372; `none` is the panic of a failed type assertion (the read of an absent
key gives nil, which is no string). -/
def recordID : JsonDatum → Option String
  | .object fields =>
    match fields.find? (fun f => f.1 == "id") with
    | some (_, .string s) => some s
    | _ => none
  | .other => none

/-- How a run of the command ends: it returns, it ends the process through
`log.Fatal` or `log.Fatalf` with a message, or it panics on a type
assertion. -/
inductive Exit where
  | returned
  | fatal (msg : String)
  | panicked

/-- A run of the command: the text written to `cmd.OutOrStdout()` and the way
the run ended. -/
structure Run where
  output : String
  exit : Exit

/-- The collaborators of `runImport`: `fetch resourceType` is the outcome of
the body of the `case` of that resource type (the calls of the API client, for
argo the digest of the clock, and the JSON round trip), either the error handed
to `log.Fatal` or the value left in `jsonStructData`; `quote` is the verb `%q`
of `fmt`. -/
structure Collaborators where
  fetch : String → Except String (List JsonDatum)
  quote : String → String

/-- The `case` labels of the `switch resourceType` of `runImport` (import.go
lines 59-365), in the order of the source. -/
def fetchCases : List String :=
  [ "cloudflare_access_rule",
    "cloudflare_account_member",
    "cloudflare_argo",
    "cloudflare_argo_tunnel",
    "cloudflare_byo_ip_prefix",
    "cloudflare_certificate_pack",
    "cloudflare_custom_pages",
    "cloudflare_filter",
    "cloudflare_firewall_rule",
    "cloudflare_healthcheck",
    "cloudflare_custom_hostname",
    "cloudflare_custom_ssl",
    "cloudflare_ip_list",
    "cloudflare_logpush_job",
    "cloudflare_origin_ca_certificate",
    "cloudflare_page_rule",
    "cloudflare_rate_limit",
    "cloudflare_record",
    "cloudflare_spectrum_application",
    "cloudflare_waf_override",
    "cloudflare_waf_package",
    "cloudflare_waiting_room",
    "cloudflare_workers_kv_namespace",
    "cloudflare_worker_route",
    "cloudflare_zone",
    "cloudflare_zone_lockdown" ]

/-- The loop of import.go lines 371-373 over the elements still to visit, with
the text written so far.  The argument of `buildCompositeID` is evaluated
before the call, so a failed assertion comes before the fatal error. -/
def writeLines (cfg : Config) (resourceType : String) : List JsonDatum → String → Run
  | [], out => ⟨out, .returned⟩
  | data :: rest, out =>
    match recordID data with
    | none => ⟨out, .panicked⟩
    | some id =>
      match buildCompositeID cfg resourceType id with
      | .error msg => ⟨out, .fatal msg⟩
      | .ok line => writeLines cfg resourceType rest (out ++ line)

/-- The function returned by `runImport` (import.go lines 57-374). -/
def runImport (cfg : Config) (env : Collaborators) (resourceType : String) : Run :=
  if resourceType ∈ fetchCases then
    match env.fetch resourceType with
    | .error err => ⟨"", .fatal err⟩
    | .ok jsonStructData => writeLines cfg resourceType jsonStructData ""
  else
    ⟨env.quote resourceType ++ " is not yet supported for state import", .returned⟩

/-- The part of the line before the template: command prefix, blank, resource
address `<resourceType>.<name prefix>_<resourceID>`. -/
def lineHead (cfg : Config) (resourceType resourceID : String) : String :=
  cfg.terraformImportCmdPrefix ++ " " ++ resourceType ++ "." ++
    cfg.terraformResourceNamePrefix ++ "_" ++ resourceID

/-- The hexadecimal digits: those `fmt.Sprintf("%x", ...)` writes for the argo
pseudo-identifier (import.go line 96), and the upper-case ones. -/
def hexDigits : List Char :=
  ['0', '1', '2', '3', '4', '5', '6', '7', '8', '9', 'a', 'b', 'c', 'd', 'e', 'f',
    'A', 'B', 'C', 'D', 'E', 'F']

/-! ## The resolved template, as the specification words it -/

/-- A template cut into its placeholder tokens and the literal text between
them. -/
inductive Piece where
  | identifierType
  | identifierValue
  | zoneId
  | accountId
  | id
  | text (s : String)

/-- The text a piece stands for in a template. -/
def Piece.source : Piece → String
  | .identifierType => ":identifier_type"
  | .identifierValue => ":identifier_value"
  | .zoneId => ":zone_id"
  | .accountId => ":account_id"
  | .id => ":id"
  | .text s => s

/-- The substitution table of the specification (section 4.1): what each token
is replaced by; literal text stays. -/
def Piece.value (cfg : Config) (resourceID : String) : Piece → String
  | .identifierType => if cfg.accountID ≠ "" then "account" else "zone"
  | .identifierValue => if cfg.accountID ≠ "" then cfg.accountID else cfg.zoneID
  | .zoneId => cfg.zoneID
  | .accountId => cfg.accountID
  | .id => resourceID
  | .text s => s

/-- The five template shapes of the specification (section 6), cut into
pieces; any other text is one literal piece. -/
def templatePieces (template : String) : List Piece :=
  if template = ":id" then [.id]
  else if template = ":zone_id/:id" then [.zoneId, .text "/", .id]
  else if template = ":account_id/:id" then [.accountId, .text "/", .id]
  else if template = ":identifier_type/:identifier_value/:id" then
    [.identifierType, .text "/", .identifierValue, .text "/", .id]
  else if template = ":zone_id/argo" then [.zoneId, .text "/argo"]
  else [.text template]

/-- The template the pieces spell. -/
def piecesSource (pieces : List Piece) : String :=
  pieces.foldr (fun p acc => p.source ++ acc) ""

/-- The resolved template: every piece replaced once by its value, the values
put side by side and not read again. -/
def resolvedPieces (cfg : Config) (resourceID : String) (pieces : List Piece) : String :=
  pieces.foldr (fun p acc => p.value cfg resourceID ++ acc) ""

/-- The resolved template `R` of a template: its pieces resolved. -/
def resolvedTemplate (cfg : Config) (resourceID template : String) : String :=
  resolvedPieces cfg resourceID (templatePieces template)

/-! ## Lemmas on the replacer -/

theorem replacerLookup_isPrefixOf {oldnew : List (String × String)} {s : List Char}
    {p : String × String} (h : replacerLookup oldnew s = some p) :
    p.1.data.isPrefixOf s = true := by
  unfold replacerLookup at h
  simpa using List.find?_some (p := fun q : String × String => q.1.data.isPrefixOf s) h

theorem replacerLookup_length_le {oldnew : List (String × String)} {s : List Char}
    {p : String × String} (h : replacerLookup oldnew s = some p) :
    p.1.length ≤ s.length := by
  have h1 := replacerLookup_isPrefixOf h
  rw [List.isPrefixOf_iff_prefix] at h1
  exact h1.length_le

/-- A replacer is determined by its lookup. -/
theorem replaceFrom_congr {ps qs : List (String × String)}
    (h : ∀ s, replacerLookup ps s = replacerLookup qs s) :
    ∀ (xs : List Char) (k : Nat), replaceFrom ps xs k = replaceFrom qs xs k := by
  intro xs
  induction xs with
  | nil => intro k; simp [replaceFrom]
  | cons c cs ih =>
    intro k
    cases k with
    | succ k => simp [replaceFrom, ih]
    | zero =>
      simp only [replaceFrom, h]
      cases replacerLookup qs (c :: cs) <;> simp [ih]

/-- A key that cannot reach from `t` into `u` matches `t ++ u` exactly when it
matches `t`. -/
theorem isPrefixOf_append_stable (u : List Char) :
    ∀ (key t : List Char),
      (t.length < key.length → (key.drop t.length).isPrefixOf u = false) →
      key.isPrefixOf (t ++ u) = key.isPrefixOf t := by
  intro key
  induction key with
  | nil => intro t _; simp
  | cons a key ih =>
    intro t h
    cases t with
    | nil => simpa using h
    | cons b t =>
      show ((a == b) && key.isPrefixOf (t ++ u)) = ((a == b) && key.isPrefixOf t)
      rw [ih t]
      intro hlt
      have := h (by simpa using hlt)
      simpa using this

theorem replacerLookup_append_stable (ps : List (String × String)) (t u : List Char)
    (h : ∀ p ∈ ps, p.1.data.isPrefixOf (t ++ u) = p.1.data.isPrefixOf t) :
    replacerLookup ps (t ++ u) = replacerLookup ps t := by
  unfold replacerLookup
  induction ps with
  | nil => rfl
  | cons p ps ih =>
    simp only [List.find?, h p (List.mem_cons_self _ _)]
    rw [ih (fun q hq => h q (List.mem_cons_of_mem _ hq))]

/-- Where no match can begin in `xs` and end in `ys`, the replacer treats the
two parts separately. -/
theorem replaceFrom_append (ps : List (String × String)) (ys : List Char)
    (h : ∀ t, replacerLookup ps (t ++ ys) = replacerLookup ps t) :
    ∀ (xs : List Char) (k : Nat), k ≤ xs.length →
      replaceFrom ps (xs ++ ys) k = replaceFrom ps xs k ++ replaceFrom ps ys 0 := by
  intro xs
  induction xs with
  | nil =>
    intro k hk
    have : k = 0 := by simpa using hk
    subst this
    simp [replaceFrom]
  | cons c cs ih =>
    intro k hk
    cases k with
    | succ k =>
      simp only [List.cons_append, replaceFrom]
      exact ih k (by simpa using hk)
    | zero =>
      have hl := h (c :: cs)
      simp only [List.cons_append] at hl
      simp only [List.cons_append, replaceFrom, List.append_eq]
      rw [hl]
      cases hp : replacerLookup ps (c :: cs) with
      | none => simp [ih 0 (Nat.zero_le _)]
      | some p =>
        have hle := replacerLookup_length_le hp
        simp only [List.length_cons] at hle
        simp [ih (p.1.length - 1) (by omega)]

/-! ## The five tokens of `buildCompositeID` -/

theorem data_identifier_type : (":identifier_type" : String).data =
    [':', 'i', 'd', 'e', 'n', 't', 'i', 'f', 'i', 'e', 'r', '_', 't', 'y', 'p', 'e'] := rfl

theorem data_identifier_value : (":identifier_value" : String).data =
    [':', 'i', 'd', 'e', 'n', 't', 'i', 'f', 'i', 'e', 'r', '_', 'v', 'a', 'l', 'u', 'e'] := rfl

theorem data_zone_id : (":zone_id" : String).data =
    [':', 'z', 'o', 'n', 'e', '_', 'i', 'd'] := rfl

theorem data_account_id : (":account_id" : String).data =
    [':', 'a', 'c', 'c', 'o', 'u', 'n', 't', '_', 'i', 'd'] := rfl

theorem data_id : (":id" : String).data = [':', 'i', 'd'] := rfl

/-- Stepping over the rest of a matched key. -/
theorem replaceFrom_skip (ps : List (String × String)) (ys : List Char) :
    ∀ xs : List Char, replaceFrom ps (xs ++ ys) xs.length = replaceFrom ps ys 0 := by
  intro xs
  induction xs with
  | nil => rfl
  | cons c cs ih => simpa [replaceFrom] using ih

/-- One step of the replacer at a position where the lookup finds a key. -/
theorem replaceFrom_match (ps : List (String × String)) (key v : String) (ys : List Char)
    (hne : key.data ≠ [])
    (h : replacerLookup ps (key.data ++ ys) = some (key, v)) :
    replaceFrom ps (key.data ++ ys) 0 = v.data ++ replaceFrom ps ys 0 := by
  have hlen : key.length = key.data.length := rfl
  cases hk : key.data with
  | nil => exact absurd hk hne
  | cons c cs =>
    rw [hk] at h
    simp only [List.cons_append] at h
    simp only [List.cons_append, replaceFrom, List.append_eq]
    rw [h]
    simp only [hlen, hk, List.length_cons, Nat.add_sub_cancel]
    rw [replaceFrom_skip]

/-- One step of the replacer at a position where the lookup finds nothing. -/
theorem replaceFrom_copy (ps : List (String × String)) (c : Char) (cs : List Char)
    (h : replacerLookup ps (c :: cs) = none) :
    replaceFrom ps (c :: cs) 0 = c :: replaceFrom ps cs 0 := by
  simp only [replaceFrom]
  rw [h]

theorem lookup_identifier_type (cfg : Config) (rid : String) (ys : List Char) :
    replacerLookup (compositeReplacer cfg rid) (":identifier_type".data ++ ys) =
      some (":identifier_type", identiferType cfg) := by
  simp [replacerLookup, compositeReplacer, List.find?, data_identifier_type, List.isPrefixOf]

theorem lookup_identifier_value (cfg : Config) (rid : String) (ys : List Char) :
    replacerLookup (compositeReplacer cfg rid) (":identifier_value".data ++ ys) =
      some (":identifier_value", identiferValue cfg) := by
  simp [replacerLookup, compositeReplacer, List.find?, data_identifier_type,
    data_identifier_value, List.isPrefixOf]

theorem lookup_zone_id (cfg : Config) (rid : String) (ys : List Char) :
    replacerLookup (compositeReplacer cfg rid) (":zone_id".data ++ ys) =
      some (":zone_id", cfg.zoneID) := by
  simp [replacerLookup, compositeReplacer, List.find?, data_identifier_type,
    data_identifier_value, data_zone_id, List.isPrefixOf]

theorem lookup_account_id (cfg : Config) (rid : String) (ys : List Char) :
    replacerLookup (compositeReplacer cfg rid) (":account_id".data ++ ys) =
      some (":account_id", cfg.accountID) := by
  simp [replacerLookup, compositeReplacer, List.find?, data_identifier_type,
    data_identifier_value, data_zone_id, data_account_id, List.isPrefixOf]

/-- The token `:id` is found where the text does not go on as `:identifier_`;
in the templates it is followed by the end of the line. -/
theorem lookup_id (cfg : Config) (rid : String) (ys : List Char) :
    replacerLookup (compositeReplacer cfg rid) (":id".data ++ '\n' :: ys) =
      some (":id", rid) := by
  simp [replacerLookup, compositeReplacer, List.find?, data_identifier_type,
    data_identifier_value, data_zone_id, data_account_id, data_id, List.isPrefixOf]

/-- No token begins with a character other than the colon. -/
theorem lookup_of_ne_colon (cfg : Config) (rid : String) (c : Char) (cs : List Char)
    (hc : c ≠ ':') : replacerLookup (compositeReplacer cfg rid) (c :: cs) = none := by
  have hc2 : (':' == c) = false := by
    simp only [beq_eq_false_iff_ne, ne_eq]
    exact fun h => hc h.symm
  simp [replacerLookup, compositeReplacer, List.find?, data_identifier_type,
    data_identifier_value, data_zone_id, data_account_id, data_id, List.isPrefixOf, hc2]

/-- Text without a colon is copied unchanged. -/
theorem replaceFrom_noColon (cfg : Config) (rid : String) (ys : List Char) :
    ∀ xs : List Char, ':' ∉ xs →
      replaceFrom (compositeReplacer cfg rid) (xs ++ ys) 0 =
        xs ++ replaceFrom (compositeReplacer cfg rid) ys 0 := by
  intro xs
  induction xs with
  | nil => intro _; rfl
  | cons c cs ih =>
    intro h
    have hc : c ≠ ':' := fun e => h (by simp [e])
    have hcs : ':' ∉ cs := fun e => h (List.mem_cons_of_mem _ e)
    rw [List.cons_append, replaceFrom_copy _ _ _ (lookup_of_ne_colon cfg rid c _ hc), ih hcs,
      List.cons_append]

theorem replaceFrom_nil (ps : List (String × String)) (k : Nat) : replaceFrom ps [] k = [] := by
  cases k <;> rfl

/-! ### The five template shapes, each followed by the newline -/

theorem replace_template_id (cfg : Config) (rid : String) :
    replaceFrom (compositeReplacer cfg rid) (":id".data ++ ['\n']) 0 = rid.data ++ ['\n'] := by
  rw [replaceFrom_match _ ":id" rid _ (by decide) (lookup_id cfg rid [])]
  rw [replaceFrom_copy _ _ _ (lookup_of_ne_colon cfg rid _ _ (by decide)), replaceFrom_nil]

theorem replace_template_zone (cfg : Config) (rid : String) :
    replaceFrom (compositeReplacer cfg rid) (":zone_id/:id".data ++ ['\n']) 0 =
      cfg.zoneID.data ++ '/' :: (rid.data ++ ['\n']) := by
  show replaceFrom (compositeReplacer cfg rid)
    (":zone_id".data ++ '/' :: (":id".data ++ ['\n'])) 0 = _
  rw [replaceFrom_match _ ":zone_id" cfg.zoneID _ (by decide) (lookup_zone_id cfg rid _)]
  rw [replaceFrom_copy _ _ _ (lookup_of_ne_colon cfg rid _ _ (by decide)), replace_template_id]

theorem replace_template_account (cfg : Config) (rid : String) :
    replaceFrom (compositeReplacer cfg rid) (":account_id/:id".data ++ ['\n']) 0 =
      cfg.accountID.data ++ '/' :: (rid.data ++ ['\n']) := by
  show replaceFrom (compositeReplacer cfg rid)
    (":account_id".data ++ '/' :: (":id".data ++ ['\n'])) 0 = _
  rw [replaceFrom_match _ ":account_id" cfg.accountID _ (by decide) (lookup_account_id cfg rid _)]
  rw [replaceFrom_copy _ _ _ (lookup_of_ne_colon cfg rid _ _ (by decide)), replace_template_id]

theorem replace_template_identifier (cfg : Config) (rid : String) :
    replaceFrom (compositeReplacer cfg rid)
        (":identifier_type/:identifier_value/:id".data ++ ['\n']) 0 =
      (identiferType cfg).data ++ '/' :: ((identiferValue cfg).data ++ '/' :: (rid.data ++ ['\n'])) := by
  show replaceFrom (compositeReplacer cfg rid)
    (":identifier_type".data ++ '/' :: (":identifier_value".data ++ '/' :: (":id".data ++ ['\n']))) 0
      = _
  rw [replaceFrom_match _ ":identifier_type" (identiferType cfg) _ (by decide)
    (lookup_identifier_type cfg rid _)]
  rw [replaceFrom_copy _ _ _ (lookup_of_ne_colon cfg rid _ _ (by decide))]
  rw [replaceFrom_match _ ":identifier_value" (identiferValue cfg) _ (by decide)
    (lookup_identifier_value cfg rid _)]
  rw [replaceFrom_copy _ _ _ (lookup_of_ne_colon cfg rid _ _ (by decide)), replace_template_id]

theorem replace_template_argo (cfg : Config) (rid : String) :
    replaceFrom (compositeReplacer cfg rid) (":zone_id/argo".data ++ ['\n']) 0 =
      cfg.zoneID.data ++ "/argo\n".data := by
  show replaceFrom (compositeReplacer cfg rid) (":zone_id".data ++ ("/argo\n".data ++ [])) 0 = _
  rw [replaceFrom_match _ ":zone_id" cfg.zoneID _ (by decide) (lookup_zone_id cfg rid _)]
  rw [replaceFrom_noColon cfg rid [] _ (by decide), replaceFrom_nil, List.append_nil]

/-! ### Places where no token can reach across -/

theorem compositeReplacer_keys (cfg : Config) (rid : String) :
    (compositeReplacer cfg rid).map Prod.fst = placeholderTokens := rfl

theorem compositeReplacer_key_mem (cfg : Config) (rid : String) (p : String × String)
    (hp : p ∈ compositeReplacer cfg rid) : p.1 ∈ placeholderTokens := by
  rw [← compositeReplacer_keys cfg rid]
  exact List.mem_map_of_mem _ hp

/-- The lookup does not see `u` when no token, cut anywhere, goes on as `u`. -/
theorem lookup_stable (cfg : Config) (rid : String) (t u : List Char)
    (h : ∀ tok ∈ placeholderTokens, ∀ n, n < tok.data.length →
      (tok.data.drop n).isPrefixOf u = false) :
    replacerLookup (compositeReplacer cfg rid) (t ++ u) =
      replacerLookup (compositeReplacer cfg rid) t := by
  apply replacerLookup_append_stable
  intro p hp
  apply isPrefixOf_append_stable
  exact h p.1 (compositeReplacer_key_mem cfg rid p hp) _

theorem drop_isPrefixOf_sep (sep : Char) (ys : List Char) :
    ∀ (key : List Char), sep ∉ key → ∀ n, n < key.length →
      (key.drop n).isPrefixOf (sep :: ys) = false := by
  intro key
  induction key with
  | nil => intro _ n hn; simp at hn
  | cons a key ih =>
    intro hsep n hn
    cases n with
    | zero =>
      have ha : a ≠ sep := fun e => hsep (by simp [e])
      simp [List.isPrefixOf, ha]
    | succ n =>
      simp only [List.drop_succ_cons]
      exact ih (fun e => hsep (List.mem_cons_of_mem _ e)) n (by simpa using hn)

/-- No token contains a blank, so no match reaches across one. -/
theorem lookup_stable_space (cfg : Config) (rid : String) (ys t : List Char) :
    replacerLookup (compositeReplacer cfg rid) (t ++ ' ' :: ys) =
      replacerLookup (compositeReplacer cfg rid) t := by
  apply lookup_stable
  intro tok htok
  apply drop_isPrefixOf_sep
  revert tok
  decide

/-- The replacer works on the text before a blank and on the text after it
separately. -/
theorem replaceFrom_space (cfg : Config) (rid : String) (xs ys : List Char) :
    replaceFrom (compositeReplacer cfg rid) (xs ++ ' ' :: ys) 0 =
      replaceFrom (compositeReplacer cfg rid) xs 0 ++
        ' ' :: replaceFrom (compositeReplacer cfg rid) ys 0 := by
  rw [replaceFrom_append _ _ (lookup_stable_space cfg rid ys) xs 0 (Nat.zero_le _)]
  rw [replaceFrom_copy _ _ _ (lookup_of_ne_colon cfg rid _ _ (by decide))]

/-! ## The line `buildCompositeID` returns -/

theorem rawLine_data (cfg : Config) (rt rid tmpl : String) :
    (rawLine cfg rt rid tmpl).data = (lineHead cfg rt rid).data ++ ' ' :: (tmpl.data ++ ['\n']) := by
  have h1 : (" " : String).data = [' '] := rfl
  have h2 : ("\n" : String).data = ['\n'] := rfl
  have h3 : ("" : String).data = [] := rfl
  simp [rawLine, lineHead, String.data_append, h1, h2, h3]

/-- The replaced line is the replaced head, a blank, and the replaced template
with its newline. -/
theorem replace_rawLine (cfg : Config) (rt rid tmpl : String) :
    (replacerReplace (compositeReplacer cfg rid) (rawLine cfg rt rid tmpl)).data =
      replaceFrom (compositeReplacer cfg rid) (lineHead cfg rt rid).data 0 ++
        ' ' :: replaceFrom (compositeReplacer cfg rid) (tmpl.data ++ ['\n']) 0 := by
  show replaceFrom _ (rawLine cfg rt rid tmpl).data 0 = _
  rw [rawLine_data, replaceFrom_space]

theorem importFormat_mem {rt tmpl : String} (h : importFormat rt = some tmpl) :
    (rt, tmpl) ∈ resourceImportStringFormats := by
  unfold importFormat at h
  rw [Option.map_eq_some'] at h
  obtain ⟨e, he, hsnd⟩ := h
  have h1 := List.find?_some he
  have h2 := List.mem_of_find?_eq_some he
  have : e = (rt, tmpl) := by
    cases e
    simp at h1 hsnd
    simp [h1, hsnd]
  rw [← this]
  exact h2

/-- Every template of the format table has one of the five shapes. -/
theorem importFormat_shape {rt tmpl : String} (h : importFormat rt = some tmpl) :
    tmpl = ":id" ∨ tmpl = ":zone_id/:id" ∨ tmpl = ":account_id/:id" ∨
      tmpl = ":identifier_type/:identifier_value/:id" ∨ tmpl = ":zone_id/argo" := by
  have hm := importFormat_mem h
  simp only [resourceImportStringFormats, List.mem_cons, Prod.mk.injEq, List.mem_singleton,
    List.not_mem_nil, or_false] at hm
  rcases hm with h | h | h | h | h | h | h | h | h | h | h | h | h | h | h | h | h | h | h | h |
    h | h | h | h <;> simp [h.2]

theorem buildCompositeID_of_format {cfg : Config} {rt rid tmpl : String}
    (h : importFormat rt = some tmpl) :
    buildCompositeID cfg rt rid =
      .ok (replacerReplace (compositeReplacer cfg rid) (rawLine cfg rt rid tmpl)) := by
  unfold buildCompositeID
  rw [h]

/-- The replaced line in terms of the pieces of the template: the replaced
head, a blank, the value of every piece, a newline. -/
theorem replaced_line_pieces (cfg : Config) (rt rid tmpl : String)
    (h : importFormat rt = some tmpl) :
    piecesSource (templatePieces tmpl) = tmpl ∧
      replacerReplace (compositeReplacer cfg rid) (rawLine cfg rt rid tmpl) =
        replacerReplace (compositeReplacer cfg rid) (lineHead cfg rt rid) ++ " " ++
          resolvedTemplate cfg rid tmpl ++ "\n" := by
  have h1 : (" " : String).data = [' '] := rfl
  have h2 : ("\n" : String).data = ['\n'] := rfl
  have h3 : ("" : String).data = [] := rfl
  have h4 : ("/" : String).data = ['/'] := rfl
  rcases importFormat_shape h with e | e | e | e | e <;> subst e <;> refine ⟨rfl, ?_⟩ <;>
    apply String.ext <;> rw [replace_rawLine]
  · rw [replace_template_id]
    simp [String.data_append, h1, h2, h3, resolvedTemplate, resolvedPieces, templatePieces,
      Piece.value, replacerReplace]
  · rw [replace_template_zone]
    simp [String.data_append, h1, h2, h3, h4, resolvedTemplate, resolvedPieces, templatePieces,
      Piece.value, replacerReplace]
  · rw [replace_template_account]
    simp [String.data_append, h1, h2, h3, h4, resolvedTemplate, resolvedPieces, templatePieces,
      Piece.value, replacerReplace]
  · rw [replace_template_identifier]
    simp [String.data_append, h1, h2, h3, h4, resolvedTemplate, resolvedPieces, templatePieces,
      Piece.value, replacerReplace, identiferType, identiferValue]
  · rw [replace_template_argo]
    have h5 : ("/argo\n" : String).data = "/argo".data ++ ['\n'] := rfl
    simp [String.data_append, h1, h2, h3, h5, resolvedTemplate, resolvedPieces, templatePieces,
      Piece.value, replacerReplace]

theorem importFormat_eq_none_iff (rt : String) :
    importFormat rt = none ↔ rt ∉ formatKeys := by
  unfold importFormat formatKeys
  rw [Option.map_eq_none', List.find?_eq_none]
  simp only [List.mem_map, not_exists, not_and]
  constructor
  · intro h e he hrt
    exact h e he (by simp [hrt])
  · intro h e he hrt
    exact h e he (by simpa using hrt)

theorem importFormat_of_mem {rt : String} (h : rt ∈ formatKeys) :
    ∃ tmpl, importFormat rt = some tmpl := by
  cases hf : importFormat rt with
  | none => exact absurd h ((importFormat_eq_none_iff rt).1 hf)
  | some tmpl => exact ⟨tmpl, rfl⟩

/-- C4: `buildCompositeID` fails exactly on the resource types that are not
keys of the format table.  For a type that is not a key it ends in the fatal
error "<type> does not have an import format defined" and returns no line; for
a type that is a key it returns a line; so an error result occurs if and only
if the type is not a key. -/
theorem buildCompositeID_fails_iff_unknown (cfg : Config) (rt rid : String) :
    (rt ∉ formatKeys →
      buildCompositeID cfg rt rid = .error (rt ++ " does not have an import format defined")) ∧
    (rt ∈ formatKeys → ∃ line, buildCompositeID cfg rt rid = .ok line) ∧
    ((∃ msg, buildCompositeID cfg rt rid = .error msg) ↔ rt ∉ formatKeys) := by
  have hnone : rt ∉ formatKeys →
      buildCompositeID cfg rt rid =
        .error (rt ++ " does not have an import format defined") := by
    intro h
    unfold buildCompositeID
    rw [(importFormat_eq_none_iff rt).2 h]
  have hsome : rt ∈ formatKeys → ∃ line, buildCompositeID cfg rt rid = .ok line := by
    intro h
    obtain ⟨tmpl, ht⟩ := importFormat_of_mem h
    exact ⟨_, buildCompositeID_of_format ht⟩
  refine ⟨hnone, hsome, ?_, fun h => ⟨_, hnone h⟩⟩
  rintro ⟨msg, hmsg⟩ hmem
  obtain ⟨line, hline⟩ := hsome hmem
  rw [hline] at hmsg
  cases hmsg

/-- C4 at the unregistered type "cloudflare_unknown_thing": the fatal error,
whatever the scope and the record. -/
theorem buildCompositeID_fails_iff_unknown_witness :
    "cloudflare_unknown_thing" ∉ formatKeys ∧
    buildCompositeID ⟨"acc1", "zone1", "terraform import", "terraform_managed_resource"⟩
      "cloudflare_unknown_thing" "abc" =
      .error "cloudflare_unknown_thing does not have an import format defined" :=
  ⟨by decide,
   (buildCompositeID_fails_iff_unknown
      ⟨"acc1", "zone1", "terraform import", "terraform_managed_resource"⟩
      "cloudflare_unknown_thing" "abc").1 (by decide)⟩

/-- C2: substitution is single-pass.  For a resource type of the format table
with template `tmpl`, and for all values (also values that contain token
text), the pieces of the template spell the template, and the line returned is
the replaced head, then a blank, then `R`, then the newline, where `R` is the
value of every piece in turn: each token replaced once by its value, inserted
verbatim and not scanned again. -/
theorem buildCompositeID_single_pass (cfg : Config) (rt rid tmpl : String)
    (h : importFormat rt = some tmpl) :
    piecesSource (templatePieces tmpl) = tmpl ∧
      buildCompositeID cfg rt rid =
        .ok (replacerReplace (compositeReplacer cfg rid) (lineHead cfg rt rid) ++ " " ++
          resolvedTemplate cfg rid tmpl ++ "\n") := by
  obtain ⟨hs, hl⟩ := replaced_line_pieces cfg rt rid tmpl h
  exact ⟨hs, by rw [buildCompositeID_of_format h, hl]⟩

/-- C2 at the two inputs the specification names: account "acc1" and record
"abc" of an account member give `R = "acc1/abc"`; zone "zone1" and record
"rec1" of a DNS record give `R = "zone1/rec1"`; and a value that is itself
token text stays as inserted (record ":zone_id" in zone "z" gives
`R = "z/:zone_id"`). -/
theorem buildCompositeID_single_pass_witness :
    (importFormat "cloudflare_account_member" = some ":account_id/:id" ∧
      resolvedTemplate ⟨"acc1", "", "terraform import", "r"⟩ "abc" ":account_id/:id" = "acc1/abc" ∧
      buildCompositeID ⟨"acc1", "", "terraform import", "r"⟩ "cloudflare_account_member" "abc" =
        .ok "terraform import cloudflare_account_member.r_abc acc1/abc\n") ∧
    (importFormat "cloudflare_record" = some ":zone_id/:id" ∧
      resolvedTemplate ⟨"", "zone1", "terraform import", "r"⟩ "rec1" ":zone_id/:id" = "zone1/rec1" ∧
      buildCompositeID ⟨"", "zone1", "terraform import", "r"⟩ "cloudflare_record" "rec1" =
        .ok "terraform import cloudflare_record.r_rec1 zone1/rec1\n") ∧
    (resolvedTemplate ⟨"", "z", "terraform import", "r"⟩ ":zone_id" ":zone_id/:id" = "z/:zone_id" ∧
      buildCompositeID ⟨"", "z", "terraform import", "r"⟩ "cloudflare_record" ":zone_id" =
        .ok "terraform import cloudflare_record.r_z z/:zone_id\n") :=
  ⟨⟨rfl, rfl,
    (buildCompositeID_single_pass ⟨"acc1", "", "terraform import", "r"⟩
      "cloudflare_account_member" "abc" ":account_id/:id" rfl).2⟩,
   ⟨rfl, rfl,
    (buildCompositeID_single_pass ⟨"", "zone1", "terraform import", "r"⟩
      "cloudflare_record" "rec1" ":zone_id/:id" rfl).2⟩,
   ⟨rfl,
    (buildCompositeID_single_pass ⟨"", "z", "terraform import", "r"⟩
      "cloudflare_record" ":zone_id" ":zone_id/:id" rfl).2⟩⟩

/-! ### Heads the replacer leaves as they are -/

theorem replaceFrom_fixed (ps : List (String × String)) :
    ∀ xs : List Char, (∀ t, t <:+ xs → t ≠ [] → replacerLookup ps t = none) →
      replaceFrom ps xs 0 = xs := by
  intro xs
  induction xs with
  | nil => intro _; rfl
  | cons c cs ih =>
    intro h
    rw [replaceFrom_copy _ _ _ (h (c :: cs) (List.suffix_refl _) (by simp))]
    rw [ih (fun t ht hne => h t (ht.trans (List.suffix_cons c cs)) hne)]

theorem lookup_none_of_no_prefix (cfg : Config) (rid : String) (t : List Char)
    (h : ∀ tok ∈ placeholderTokens, ¬ tok.data <+: t) :
    replacerLookup (compositeReplacer cfg rid) t = none := by
  unfold replacerLookup
  rw [List.find?_eq_none]
  intro p hp
  have := h p.1 (compositeReplacer_key_mem cfg rid p hp)
  simpa [List.isPrefixOf_iff_prefix] using this

/-- A text in which no token occurs is left as it is. -/
theorem replacerReplace_of_no_token (cfg : Config) (rid s : String)
    (h : ∀ tok ∈ placeholderTokens, ¬ tok.data <:+: s.data) :
    replacerReplace (compositeReplacer cfg rid) s = s := by
  apply String.ext
  show replaceFrom (compositeReplacer cfg rid) s.data 0 = s.data
  apply replaceFrom_fixed
  intro t ht _
  apply lookup_none_of_no_prefix
  intro tok htok hpre
  exact h tok htok (hpre.isInfix.trans ht.isInfix)

theorem token_has_colon : ∀ tok ∈ placeholderTokens, ':' ∈ tok.data := by decide

/-- A text without a colon holds no token. -/
theorem no_token_of_noColon (s : String) (h : ':' ∉ s.data) :
    ∀ tok ∈ placeholderTokens, ¬ tok.data <:+: s.data := by
  intro tok htok hin
  exact h (hin.subset (token_has_colon tok htok))

theorem formatKeys_noColon : ∀ rt ∈ formatKeys, ':' ∉ rt.data := by decide

theorem importFormat_key {rt tmpl : String} (h : importFormat rt = some tmpl) :
    rt ∈ formatKeys := by
  by_contra hn
  rw [(importFormat_eq_none_iff rt).2 hn] at h
  cases h

theorem lineHead_noColon (cfg : Config) (rt rid : String) (hrt : rt ∈ formatKeys)
    (h1 : ':' ∉ cfg.terraformImportCmdPrefix.data)
    (h2 : ':' ∉ cfg.terraformResourceNamePrefix.data) (h3 : ':' ∉ rid.data) :
    ':' ∉ (lineHead cfg rt rid).data := by
  have hk := formatKeys_noColon rt hrt
  have e1 : (" " : String).data = [' '] := rfl
  have e2 : ("." : String).data = ['.'] := rfl
  have e3 : ("_" : String).data = ['_'] := rfl
  simp [lineHead, String.data_append, e1, e2, e3, h1, h2, h3, hk]

/-- The line for a head the replacer leaves as it is. -/
theorem line_of_fixed_head (cfg : Config) (rt rid tmpl : String)
    (h : importFormat rt = some tmpl)
    (hfix : replacerReplace (compositeReplacer cfg rid) (lineHead cfg rt rid) =
      lineHead cfg rt rid) :
    buildCompositeID cfg rt rid =
      .ok (cfg.terraformImportCmdPrefix ++ " " ++ rt ++ "." ++
        cfg.terraformResourceNamePrefix ++ "_" ++ rid ++ " " ++
        resolvedTemplate cfg rid tmpl ++ "\n") := by
  rw [buildCompositeID_of_format h, (replaced_line_pieces cfg rt rid tmpl h).2, hfix]
  rfl

/-- C1, as amended: for a resource type of the format table with template
`tmpl`, and all values such that none of the five tokens occurs in the head
`prefix + " " + resourceType + "." + namePrefix + "_" + resourceID`,
`buildCompositeID` returns exactly that head, a blank, the resolved template
`R` and a newline. -/
theorem buildCompositeID_exact_line (cfg : Config) (rt rid tmpl : String)
    (h : importFormat rt = some tmpl)
    (hfree : ∀ tok ∈ placeholderTokens, ¬ tok.data <:+: (lineHead cfg rt rid).data) :
    buildCompositeID cfg rt rid =
      .ok (cfg.terraformImportCmdPrefix ++ " " ++ rt ++ "." ++
        cfg.terraformResourceNamePrefix ++ "_" ++ rid ++ " " ++
        resolvedTemplate cfg rid tmpl ++ "\n") :=
  line_of_fixed_head cfg rt rid tmpl h (replacerReplace_of_no_token cfg rid _ hfree)

set_option maxRecDepth 100000 in
/-- C1, as amended, at a DNS record "rec1" of zone "zone1". -/
theorem buildCompositeID_exact_line_witness :
    importFormat "cloudflare_record" = some ":zone_id/:id" ∧
    (∀ tok ∈ placeholderTokens, ¬ tok.data <:+:
      (lineHead ⟨"", "zone1", "terraform import", "terraform_managed_resource"⟩
        "cloudflare_record" "rec1").data) ∧
    buildCompositeID ⟨"", "zone1", "terraform import", "terraform_managed_resource"⟩
        "cloudflare_record" "rec1" =
      .ok "terraform import cloudflare_record.terraform_managed_resource_rec1 zone1/rec1\n" :=
  ⟨rfl, by decide,
   buildCompositeID_exact_line ⟨"", "zone1", "terraform import", "terraform_managed_resource"⟩
     "cloudflare_record" "rec1" ":zone_id/:id" rfl (by decide)⟩

/-- C1 as stated fails: with account "acc1", an account member whose
(non-empty) record identifier is the text ":account_id" gets the line
"... cloudflare_account_member.r_acc1 acc1/:account_id", in which the
identifier of the resource address is no longer the literal one; the line the
claim promises is another string. -/
theorem buildCompositeID_exact_line_counterexample :
    importFormat "cloudflare_account_member" = some ":account_id/:id" ∧
    buildCompositeID ⟨"acc1", "", "terraform import", "r"⟩ "cloudflare_account_member"
        ":account_id" =
      .ok "terraform import cloudflare_account_member.r_acc1 acc1/:account_id\n" ∧
    "terraform import" ++ " " ++ "cloudflare_account_member" ++ "." ++ "r" ++ "_" ++
        ":account_id" ++ " " ++
        resolvedTemplate ⟨"acc1", "", "terraform import", "r"⟩ ":account_id" ":account_id/:id" ++
        "\n" =
      "terraform import cloudflare_account_member.r_:account_id acc1/:account_id\n" ∧
    "terraform import cloudflare_account_member.r_acc1 acc1/:account_id\n" ≠
      "terraform import cloudflare_account_member.r_:account_id acc1/:account_id\n" :=
  ⟨rfl, rfl, rfl, by decide⟩

/-- C9: the replacer runs over the whole assembled line.  When the command
prefix, the name prefix and the record identifier hold no colon, the line of a
resource type of the format table is exactly
`prefix + " " + resourceType + "." + namePrefix + "_" + resourceID + " " + R + "\n"`;
but for the record identifier ":zone_id" in zone "z" the resource address of
the line reads "r_z", not "r_:zone_id". -/
theorem buildCompositeID_replaces_whole_line :
    (∀ (cfg : Config) (rt rid tmpl : String), importFormat rt = some tmpl →
      ':' ∉ cfg.terraformImportCmdPrefix.data → ':' ∉ cfg.terraformResourceNamePrefix.data →
      ':' ∉ rid.data →
      buildCompositeID cfg rt rid =
        .ok (cfg.terraformImportCmdPrefix ++ " " ++ rt ++ "." ++
          cfg.terraformResourceNamePrefix ++ "_" ++ rid ++ " " ++
          resolvedTemplate cfg rid tmpl ++ "\n")) ∧
    (buildCompositeID ⟨"", "z", "terraform import", "r"⟩ "cloudflare_zone" ":zone_id" =
        .ok "terraform import cloudflare_zone.r_z :zone_id\n" ∧
      "terraform import" ++ " " ++ "cloudflare_zone" ++ "." ++ "r" ++ "_" ++ ":zone_id" ++ " " ++
          resolvedTemplate ⟨"", "z", "terraform import", "r"⟩ ":zone_id" ":id" ++ "\n" =
        "terraform import cloudflare_zone.r_:zone_id :zone_id\n" ∧
      "terraform import cloudflare_zone.r_z :zone_id\n" ≠
        "terraform import cloudflare_zone.r_:zone_id :zone_id\n") := by
  refine ⟨?_, rfl, rfl, by decide⟩
  intro cfg rt rid tmpl h h1 h2 h3
  apply line_of_fixed_head cfg rt rid tmpl h
  apply replacerReplace_of_no_token
  exact no_token_of_noColon _ (lineHead_noColon cfg rt rid (importFormat_key h) h1 h2 h3)

/-- C9 at an access rule "r1" of account "acc1" with the usual prefixes, none
of which holds a colon. -/
theorem buildCompositeID_replaces_whole_line_witness :
    buildCompositeID ⟨"acc1", "", "terraform import", "terraform_managed_resource"⟩
        "cloudflare_access_rule" "r1" =
      .ok ("terraform import cloudflare_access_rule.terraform_managed_resource_r1 " ++
        "account/acc1/r1\n") :=
  buildCompositeID_replaces_whole_line.1
    ⟨"acc1", "", "terraform import", "terraform_managed_resource"⟩
    "cloudflare_access_rule" "r1" ":identifier_type/:identifier_value/:id" rfl
    (by decide) (by decide) (by decide)

theorem resolvedTemplate_noColon (cfg : Config) (rt rid tmpl : String)
    (h : importFormat rt = some tmpl)
    (h3 : ':' ∉ rid.data) (h4 : ':' ∉ cfg.accountID.data) (h5 : ':' ∉ cfg.zoneID.data) :
    ':' ∉ (resolvedTemplate cfg rid tmpl).data := by
  have e1 : ("/" : String).data = ['/'] := rfl
  have e2 : ("" : String).data = [] := rfl
  have e3 : ("account" : String).data = ['a', 'c', 'c', 'o', 'u', 'n', 't'] := rfl
  have e4 : ("zone" : String).data = ['z', 'o', 'n', 'e'] := rfl
  have e5 : ("/argo" : String).data = ['/', 'a', 'r', 'g', 'o'] := rfl
  rcases importFormat_shape h with e | e | e | e | e <;> subst e
  · simp [resolvedTemplate, resolvedPieces, templatePieces, Piece.value, String.data_append,
      e2, h3]
  · simp [resolvedTemplate, resolvedPieces, templatePieces, Piece.value, String.data_append,
      e1, e2, h3, h5]
  · simp [resolvedTemplate, resolvedPieces, templatePieces, Piece.value, String.data_append,
      e1, e2, h3, h4]
  · by_cases ha : cfg.accountID = "" <;>
      simp [resolvedTemplate, resolvedPieces, templatePieces, Piece.value, String.data_append,
        e1, e2, e3, e4, h3, h4, h5, ha]
  · simp [resolvedTemplate, resolvedPieces, templatePieces, Piece.value, String.data_append,
      e2, e5, h5]

/-- C5, as amended: for a resource type of the format table, when the command
prefix, the name prefix, the record identifier, the account identifier and the
zone identifier hold no colon, the line returned holds no placeholder token:
none of ":identifier_type", ":identifier_value", ":zone_id", ":account_id",
":id" occurs in it. -/
theorem buildCompositeID_no_token_left (cfg : Config) (rt rid : String)
    (hrt : rt ∈ formatKeys)
    (h1 : ':' ∉ cfg.terraformImportCmdPrefix.data)
    (h2 : ':' ∉ cfg.terraformResourceNamePrefix.data)
    (h3 : ':' ∉ rid.data) (h4 : ':' ∉ cfg.accountID.data) (h5 : ':' ∉ cfg.zoneID.data) :
    ∃ line, buildCompositeID cfg rt rid = .ok line ∧
      ∀ tok ∈ placeholderTokens, ¬ tok.data <:+: line.data := by
  obtain ⟨tmpl, h⟩ := importFormat_of_mem hrt
  have hhead := lineHead_noColon cfg rt rid hrt h1 h2 h3
  refine ⟨_, line_of_fixed_head cfg rt rid tmpl h
    (replacerReplace_of_no_token cfg rid _ (no_token_of_noColon _ hhead)), ?_⟩
  apply no_token_of_noColon
  have hR := resolvedTemplate_noColon cfg rt rid tmpl h h3 h4 h5
  have e1 : (" " : String).data = [' '] := rfl
  have e2 : ("\n" : String).data = ['\n'] := rfl
  have e3 : ("." : String).data = ['.'] := rfl
  have e4 : ("_" : String).data = ['_'] := rfl
  have hk := formatKeys_noColon rt hrt
  simp [String.data_append, e1, e2, e3, e4, h1, h2, h3, hk, hR]

set_option maxRecDepth 100000 in
/-- C5, as amended, at the zone "zone1" and the page rule "pr1". -/
theorem buildCompositeID_no_token_left_witness :
    "cloudflare_page_rule" ∈ formatKeys ∧
    buildCompositeID ⟨"", "zone1", "terraform import", "r"⟩ "cloudflare_page_rule" "pr1" =
      .ok "terraform import cloudflare_page_rule.r_pr1 zone1/pr1\n" ∧
    ∃ line, buildCompositeID ⟨"", "zone1", "terraform import", "r"⟩
        "cloudflare_page_rule" "pr1" = .ok line ∧
      ∀ tok ∈ placeholderTokens, ¬ tok.data <:+: line.data :=
  ⟨by decide, rfl,
   buildCompositeID_no_token_left ⟨"", "zone1", "terraform import", "r"⟩
     "cloudflare_page_rule" "pr1" (by decide) (by decide) (by decide) (by decide)
     (by decide) (by decide)⟩

/-- C5 as stated fails: the non-empty record identifier ":id" of a zone is
inserted verbatim, so the line returned still holds the token ":id". -/
theorem buildCompositeID_no_token_left_counterexample :
    "cloudflare_zone" ∈ formatKeys ∧ ":id" ≠ "" ∧ ":id" ∈ placeholderTokens ∧
    buildCompositeID ⟨"", "zone1", "terraform import", "r"⟩ "cloudflare_zone" ":id" =
      .ok "terraform import cloudflare_zone.r_:id :id\n" ∧
    ":id".data <:+: "terraform import cloudflare_zone.r_:id :id\n".data :=
  ⟨by decide, by decide, by decide, rfl,
   ⟨"terraform import cloudflare_zone.r_:id ".data, "\n".data, rfl⟩⟩

/-- C3: for the two resource types whose template is
":identifier_type/:identifier_value/:id" (access rule and custom pages) and all
values, the line ends with " account/" + accountID + "/" + resourceID + "\n"
when accountID is non-empty (whatever zoneID is), and with
" zone/" + zoneID + "/" + resourceID + "\n" when accountID is empty (whatever
zoneID is); what stands before is the replaced head. -/
theorem buildCompositeID_identifier_scope (cfg : Config) (rt rid : String)
    (hrt : rt = "cloudflare_access_rule" ∨ rt = "cloudflare_custom_pages") :
    importFormat rt = some ":identifier_type/:identifier_value/:id" ∧
    (cfg.accountID ≠ "" →
      buildCompositeID cfg rt rid =
        .ok (replacerReplace (compositeReplacer cfg rid) (lineHead cfg rt rid) ++
          " account/" ++ cfg.accountID ++ "/" ++ rid ++ "\n")) ∧
    (cfg.accountID = "" →
      buildCompositeID cfg rt rid =
        .ok (replacerReplace (compositeReplacer cfg rid) (lineHead cfg rt rid) ++
          " zone/" ++ cfg.zoneID ++ "/" ++ rid ++ "\n")) := by
  have h : importFormat rt = some ":identifier_type/:identifier_value/:id" := by
    rcases hrt with e | e <;> subst e <;> rfl
  have hl := (replaced_line_pieces cfg rt rid _ h).2
  have e1 : (" " : String).data = [' '] := rfl
  have e2 : ("" : String).data = [] := rfl
  have e3 : ("account" : String).data = ['a', 'c', 'c', 'o', 'u', 'n', 't'] := rfl
  have e4 : ("zone" : String).data = ['z', 'o', 'n', 'e'] := rfl
  have e5 : (" account/" : String).data = [' ', 'a', 'c', 'c', 'o', 'u', 'n', 't', '/'] := rfl
  have e6 : (" zone/" : String).data = [' ', 'z', 'o', 'n', 'e', '/'] := rfl
  have e7 : ("/" : String).data = ['/'] := rfl
  refine ⟨h, fun ha => ?_, fun ha => ?_⟩
  · rw [buildCompositeID_of_format h, hl]
    congr 1
    apply String.ext
    simp [resolvedTemplate, resolvedPieces, templatePieces, Piece.value, String.data_append,
      e1, e2, e3, e5, e7, ha]
  · rw [buildCompositeID_of_format h, hl]
    congr 1
    apply String.ext
    simp [resolvedTemplate, resolvedPieces, templatePieces, Piece.value, String.data_append,
      e1, e2, e4, e6, e7, ha]

/-- C3 at the input the specification names: account "acc1", access rule "r1"
yields "account/acc1/r1"; with both identifiers given the account wins, and
with neither the line ends with " zone//r1". -/
theorem buildCompositeID_identifier_scope_witness :
    buildCompositeID ⟨"acc1", "", "terraform import", "r"⟩ "cloudflare_access_rule" "r1" =
      .ok "terraform import cloudflare_access_rule.r_r1 account/acc1/r1\n" ∧
    buildCompositeID ⟨"acc1", "zone1", "terraform import", "r"⟩ "cloudflare_custom_pages" "r1" =
      .ok "terraform import cloudflare_custom_pages.r_r1 account/acc1/r1\n" ∧
    buildCompositeID ⟨"", "", "terraform import", "r"⟩ "cloudflare_access_rule" "r1" =
      .ok "terraform import cloudflare_access_rule.r_r1 zone//r1\n" :=
  ⟨(buildCompositeID_identifier_scope ⟨"acc1", "", "terraform import", "r"⟩
      "cloudflare_access_rule" "r1" (Or.inl rfl)).2.1 (by decide),
   (buildCompositeID_identifier_scope ⟨"acc1", "zone1", "terraform import", "r"⟩
      "cloudflare_custom_pages" "r1" (Or.inr rfl)).2.1 (by decide),
   (buildCompositeID_identifier_scope ⟨"", "", "terraform import", "r"⟩
      "cloudflare_access_rule" "r1" (Or.inl rfl)).2.2 rfl⟩

/-! ### The argo pseudo-identifier -/

theorem drop_isPrefixOf_underscore (rest : List Char)
    (hrest : ∀ d rest1, rest = d :: rest1 → d ≠ 'i' ∧ d ≠ 't' ∧ d ≠ 'v') :
    ∀ tok ∈ placeholderTokens, ∀ n, n < tok.data.length →
      (tok.data.drop n).isPrefixOf ('_' :: rest) = false := by
  intro tok htok n hn
  cases rest with
  | nil =>
    simp only [placeholderTokens, List.mem_cons, List.mem_singleton, List.not_mem_nil,
      or_false] at htok
    rcases htok with e | e | e | e | e <;> subst e
    · rw [data_identifier_type] at hn ⊢
      simp only [List.length_cons, List.length_nil] at hn
      interval_cases n <;> simp [List.isPrefixOf]
    · rw [data_identifier_value] at hn ⊢
      simp only [List.length_cons, List.length_nil] at hn
      interval_cases n <;> simp [List.isPrefixOf]
    · rw [data_zone_id] at hn ⊢
      simp only [List.length_cons, List.length_nil] at hn
      interval_cases n <;> simp [List.isPrefixOf]
    · rw [data_account_id] at hn ⊢
      simp only [List.length_cons, List.length_nil] at hn
      interval_cases n <;> simp [List.isPrefixOf]
    · rw [data_id] at hn ⊢
      simp only [List.length_cons, List.length_nil] at hn
      interval_cases n <;> simp [List.isPrefixOf]
  | cons d rest1 =>
    obtain ⟨hi, ht, hv⟩ := hrest d rest1 rfl
    have hi2 : ('i' == d) = false := by
      simp only [beq_eq_false_iff_ne, ne_eq]; exact fun h => hi h.symm
    have ht2 : ('t' == d) = false := by
      simp only [beq_eq_false_iff_ne, ne_eq]; exact fun h => ht h.symm
    have hv2 : ('v' == d) = false := by
      simp only [beq_eq_false_iff_ne, ne_eq]; exact fun h => hv h.symm
    simp only [placeholderTokens, List.mem_cons, List.mem_singleton, List.not_mem_nil,
      or_false] at htok
    rcases htok with e | e | e | e | e <;> subst e
    · rw [data_identifier_type] at hn ⊢
      simp only [List.length_cons, List.length_nil] at hn
      interval_cases n <;> simp [List.isPrefixOf, hi2, ht2, hv2]
    · rw [data_identifier_value] at hn ⊢
      simp only [List.length_cons, List.length_nil] at hn
      interval_cases n <;> simp [List.isPrefixOf, hi2, ht2, hv2]
    · rw [data_zone_id] at hn ⊢
      simp only [List.length_cons, List.length_nil] at hn
      interval_cases n <;> simp [List.isPrefixOf, hi2, ht2, hv2]
    · rw [data_account_id] at hn ⊢
      simp only [List.length_cons, List.length_nil] at hn
      interval_cases n <;> simp [List.isPrefixOf, hi2, ht2, hv2]
    · rw [data_id] at hn ⊢
      simp only [List.length_cons, List.length_nil] at hn
      interval_cases n <;> simp [List.isPrefixOf, hi2, ht2, hv2]

theorem hexDigits_not_token_char : ∀ c ∈ hexDigits,
    c ≠ ':' ∧ c ≠ 'i' ∧ c ≠ 't' ∧ c ≠ 'v' := by decide

theorem replaceFrom_noColon_all (cfg : Config) (rid : String) (xs : List Char)
    (h : ':' ∉ xs) : replaceFrom (compositeReplacer cfg rid) xs 0 = xs := by
  have := replaceFrom_noColon cfg rid [] xs h
  simpa [replaceFrom_nil] using this

/-- The head of an argo line: a hexadecimal identifier stays as it is, and no
token reaches from the name prefix across the underscore into it. -/
theorem replace_argo_head (cfg : Config) (rid : String)
    (hhex : ∀ c ∈ rid.data, c ∈ hexDigits) :
    replacerReplace (compositeReplacer cfg rid) (lineHead cfg "cloudflare_argo" rid) =
      replacerReplace (compositeReplacer cfg rid) cfg.terraformImportCmdPrefix ++ " " ++
        "cloudflare_argo" ++ "." ++
        replacerReplace (compositeReplacer cfg rid) cfg.terraformResourceNamePrefix ++ "_" ++
        rid := by
  have e1 : (" " : String).data = [' '] := rfl
  have e2 : ("." : String).data = ['.'] := rfl
  have e3 : ("_" : String).data = ['_'] := rfl
  have hcolon : ':' ∉ rid.data := fun hm => (hexDigits_not_token_char _ (hhex _ hm)).1 rfl
  have hstable : ∀ t, replacerLookup (compositeReplacer cfg rid) (t ++ '_' :: rid.data) =
      replacerLookup (compositeReplacer cfg rid) t := by
    intro t
    apply lookup_stable
    apply drop_isPrefixOf_underscore
    intro d rest1 hd
    have hm : d ∈ rid.data := by rw [hd]; exact List.mem_cons_self _ _
    exact (hexDigits_not_token_char d (hhex d hm)).2
  apply String.ext
  show replaceFrom (compositeReplacer cfg rid) (lineHead cfg "cloudflare_argo" rid).data 0 = _
  have hdata : (lineHead cfg "cloudflare_argo" rid).data =
      cfg.terraformImportCmdPrefix.data ++ ' ' :: ("cloudflare_argo".data ++
        '.' :: (cfg.terraformResourceNamePrefix.data ++ '_' :: rid.data)) := by
    simp [lineHead, String.data_append, e1, e2, e3]
  rw [hdata, replaceFrom_space, replaceFrom_noColon cfg rid _ _ (by decide),
    replaceFrom_copy _ _ _ (lookup_of_ne_colon cfg rid _ _ (by decide)),
    replaceFrom_append _ _ hstable _ 0 (Nat.zero_le _),
    replaceFrom_copy _ _ _ (lookup_of_ne_colon cfg rid _ _ (by decide)),
    replaceFrom_noColon_all cfg rid _ hcolon]
  simp [String.data_append, e1, e2, e3, replacerReplace]

theorem argo_line (cfg : Config) (rid : String)
    (hhex : ∀ c ∈ rid.data, c ∈ hexDigits) :
    buildCompositeID cfg "cloudflare_argo" rid =
      .ok (replacerReplace (compositeReplacer cfg rid) cfg.terraformImportCmdPrefix ++ " " ++
        "cloudflare_argo" ++ "." ++
        replacerReplace (compositeReplacer cfg rid) cfg.terraformResourceNamePrefix ++ "_" ++
        rid ++ " " ++ (cfg.zoneID ++ "/argo") ++ "\n") := by
  have h : importFormat "cloudflare_argo" = some ":zone_id/argo" := rfl
  rw [buildCompositeID_of_format h, (replaced_line_pieces cfg _ rid _ h).2,
    replace_argo_head cfg rid hhex]
  rfl

/-! ## The driving loop -/

theorem formatKeys_subset_fetchCases : ∀ rt ∈ formatKeys, rt ∈ fetchCases := by decide

theorem writeLines_ok (cfg : Config) (rt : String) :
    ∀ (data : List JsonDatum) (ids : List String) (out : String),
      rt ∈ formatKeys → data.map recordID = ids.map some →
      ∃ lines, ids.map (buildCompositeID cfg rt) = lines.map Except.ok ∧
        lines.length = data.length ∧
        writeLines cfg rt data out = ⟨out ++ String.join lines, .returned⟩ := by
  intro data
  induction data with
  | nil =>
    intro ids out _ h
    cases ids with
    | nil => exact ⟨[], rfl, rfl, by simp [writeLines, String.join]⟩
    | cons _ _ => simp at h
  | cons d ds ih =>
    intro ids out hrt h
    cases ids with
    | nil => simp at h
    | cons id ids =>
      simp only [List.map_cons, List.cons.injEq] at h
      obtain ⟨hd, hds⟩ := h
      obtain ⟨tmpl, ht⟩ := importFormat_of_mem hrt
      have hline := @buildCompositeID_of_format cfg rt id tmpl ht
      obtain ⟨lines, hl1, hl2, hl3⟩ := ih ids
        (out ++ replacerReplace (compositeReplacer cfg id) (rawLine cfg rt id tmpl)) hrt hds
      refine ⟨replacerReplace (compositeReplacer cfg id) (rawLine cfg rt id tmpl) :: lines,
        ?_, ?_, ?_⟩
      · simp [hline, hl1]
      · simp [hl2]
      · simp only [writeLines, hd, hline, hl3]
        congr 1
        apply String.ext
        simp [String.data_append]

/-- C6: for the resource type "cloudflare_argo", every scope and every
pseudo-identifier made of hexadecimal digits, the line `buildCompositeID`
returns holds the identifier, unchanged, at the end of the resource address
`cloudflare_argo.<name prefix as replaced>_<identifier>`, and its last field is
`zoneID + "/argo"`: the line ends with " " + zoneID + "/argo" + "\n", a text in
which the identifier does not occur, so it is the same for any two
identifiers.  A name prefix in which no token occurs stands in the address as
it is.  A run of the command whose argo case leaves the one record with that
identifier writes this line and returns. -/
theorem buildCompositeID_argo (cfg : Config) (rid : String)
    (hhex : ∀ c ∈ rid.data, c ∈ hexDigits) :
    buildCompositeID cfg "cloudflare_argo" rid =
      .ok (replacerReplace (compositeReplacer cfg rid) cfg.terraformImportCmdPrefix ++ " " ++
        "cloudflare_argo" ++ "." ++
        replacerReplace (compositeReplacer cfg rid) cfg.terraformResourceNamePrefix ++ "_" ++
        rid ++ " " ++ (cfg.zoneID ++ "/argo") ++ "\n") ∧
    ((∀ tok ∈ placeholderTokens, ¬ tok.data <:+: cfg.terraformResourceNamePrefix.data) →
      buildCompositeID cfg "cloudflare_argo" rid =
        .ok (replacerReplace (compositeReplacer cfg rid) cfg.terraformImportCmdPrefix ++ " " ++
          "cloudflare_argo" ++ "." ++ cfg.terraformResourceNamePrefix ++ "_" ++
          rid ++ " " ++ (cfg.zoneID ++ "/argo") ++ "\n")) ∧
    ∀ (env : Collaborators) (d : JsonDatum),
      env.fetch "cloudflare_argo" = .ok [d] → recordID d = some rid →
      runImport cfg env "cloudflare_argo" =
        ⟨replacerReplace (compositeReplacer cfg rid) cfg.terraformImportCmdPrefix ++ " " ++
          "cloudflare_argo" ++ "." ++
          replacerReplace (compositeReplacer cfg rid) cfg.terraformResourceNamePrefix ++ "_" ++
          rid ++ " " ++ (cfg.zoneID ++ "/argo") ++ "\n", .returned⟩ := by
  have hline := argo_line cfg rid hhex
  refine ⟨hline, ?_, ?_⟩
  · intro hfree
    rw [hline, replacerReplace_of_no_token cfg rid _ hfree]
  · intro env d hfetch hd
    have hcase : "cloudflare_argo" ∈ fetchCases := by decide
    simp only [runImport, hcase, if_true, hfetch, writeLines, hd, hline]
    rfl

/-- C6 at the input the specification names, zone "zone1", with the md5 digest
of the empty text as pseudo-identifier: the line ends in "zone1/argo". -/
theorem buildCompositeID_argo_witness :
    (∀ c ∈ "d41d8cd98f00b204e9800998ecf8427e".data, c ∈ hexDigits) ∧
    buildCompositeID ⟨"", "zone1", "terraform import", "terraform_managed_resource"⟩
        "cloudflare_argo" "d41d8cd98f00b204e9800998ecf8427e" =
      .ok ("terraform import cloudflare_argo.terraform_managed_resource_" ++
        "d41d8cd98f00b204e9800998ecf8427e zone1/argo\n") :=
  ⟨by decide,
   (buildCompositeID_argo ⟨"", "zone1", "terraform import", "terraform_managed_resource"⟩
     "d41d8cd98f00b204e9800998ecf8427e" (by decide)).1⟩

/-- C7: the driving loop.  For a resource type of the format table whose case
leaves the elements `data`, each with a string "id" field, the ids being `ids`
in that order: `buildCompositeID` returns a line for every id, there is one
line for each element, and the run writes exactly these lines, joined in the
order of the elements (nothing reordered, nothing dropped), and returns. -/
theorem runImport_lines_in_order (cfg : Config) (env : Collaborators) (rt : String)
    (data : List JsonDatum) (ids : List String)
    (hrt : rt ∈ formatKeys) (hfetch : env.fetch rt = .ok data)
    (hids : data.map recordID = ids.map some) :
    ∃ lines, ids.map (buildCompositeID cfg rt) = lines.map Except.ok ∧
      lines.length = data.length ∧
      runImport cfg env rt = ⟨String.join lines, .returned⟩ := by
  obtain ⟨lines, h1, h2, h3⟩ := writeLines_ok cfg rt data ids "" hrt hids
  refine ⟨lines, h1, h2, ?_⟩
  have hcase := formatKeys_subset_fetchCases rt hrt
  simp only [runImport, hcase, if_true, hfetch, h3]
  rfl

/-- C7 at three zone records with the ids "a", "b", "a": three lines, in that
order, the repeated id written twice; and at no record at all: nothing is
written. -/
theorem runImport_lines_in_order_witness :
    (∃ lines, ["a", "b", "a"].map
          (buildCompositeID ⟨"", "z", "terraform import", "r"⟩ "cloudflare_zone") =
        lines.map Except.ok ∧
      lines.length = 3 ∧
      runImport ⟨"", "z", "terraform import", "r"⟩
          ⟨fun _ => .ok [.object [("id", .string "a")], .object [("id", .string "b")],
            .object [("name", .other), ("id", .string "a")]], fun s => s⟩ "cloudflare_zone" =
        ⟨String.join lines, .returned⟩) ∧
    (runImport ⟨"", "z", "terraform import", "r"⟩
        ⟨fun _ => .ok [.object [("id", .string "a")], .object [("id", .string "b")],
          .object [("name", .other), ("id", .string "a")]], fun s => s⟩ "cloudflare_zone" =
      ⟨"terraform import cloudflare_zone.r_a a\nterraform import cloudflare_zone.r_b b\n" ++
        "terraform import cloudflare_zone.r_a a\n", .returned⟩) ∧
    (runImport ⟨"", "z", "terraform import", "r"⟩ ⟨fun _ => .ok [], fun s => s⟩
        "cloudflare_zone" = ⟨"", .returned⟩) :=
  ⟨runImport_lines_in_order ⟨"", "z", "terraform import", "r"⟩
      ⟨fun _ => .ok [.object [("id", .string "a")], .object [("id", .string "b")],
        .object [("name", .other), ("id", .string "a")]], fun s => s⟩ "cloudflare_zone"
      [.object [("id", .string "a")], .object [("id", .string "b")],
        .object [("name", .other), ("id", .string "a")]] ["a", "b", "a"]
      (by decide) rfl rfl,
   rfl, rfl⟩

/-! ## The switch and the format table -/

theorem fetchCases_cover : ∀ rt ∈ fetchCases,
    rt ∈ formatKeys ∨ rt = "cloudflare_logpush_job" ∨ rt = "cloudflare_waf_package" := by
  decide

/-- C10, as amended: the switch of `runImport` and the format table do not
cover the same resource types.  Every key of the format table has a case; the
switch has, besides, the cases "cloudflare_logpush_job" and
"cloudflare_waf_package", which are no keys of the table, and no other case.
For these two types a run whose case leaves at least one element, the first of
which has a string "id" field, ends in the fatal error of `buildCompositeID`
with nothing written; a run whose case leaves no element writes nothing and
returns.  For a type without a case the run writes only the notice
"<quoted type> is not yet supported for state import" and returns. -/
theorem runImport_switch_and_table (cfg : Config) (env : Collaborators) :
    (∀ rt ∈ formatKeys, rt ∈ fetchCases) ∧
    ("cloudflare_logpush_job" ∈ fetchCases ∧ "cloudflare_logpush_job" ∉ formatKeys) ∧
    ("cloudflare_waf_package" ∈ fetchCases ∧ "cloudflare_waf_package" ∉ formatKeys) ∧
    (∀ rt ∈ fetchCases,
      rt ∈ formatKeys ∨ rt = "cloudflare_logpush_job" ∨ rt = "cloudflare_waf_package") ∧
    (∀ rt, rt = "cloudflare_logpush_job" ∨ rt = "cloudflare_waf_package" →
      ∀ (d : JsonDatum) (ds : List JsonDatum) (id : String),
        env.fetch rt = .ok (d :: ds) → recordID d = some id →
        runImport cfg env rt =
          ⟨"", .fatal (rt ++ " does not have an import format defined")⟩) ∧
    (∀ rt, rt = "cloudflare_logpush_job" ∨ rt = "cloudflare_waf_package" →
      env.fetch rt = .ok [] → runImport cfg env rt = ⟨"", .returned⟩) ∧
    (∀ rt, rt ∉ fetchCases →
      runImport cfg env rt =
        ⟨env.quote rt ++ " is not yet supported for state import", .returned⟩) := by
  refine ⟨formatKeys_subset_fetchCases, by decide, by decide, fetchCases_cover, ?_, ?_, ?_⟩
  · intro rt hrt d ds id hfetch hd
    have hcase : rt ∈ fetchCases := by rcases hrt with e | e <;> subst e <;> decide
    have hkey : importFormat rt = none := by rcases hrt with e | e <;> subst e <;> rfl
    simp only [runImport, hcase, if_true, hfetch, writeLines, hd, buildCompositeID, hkey]
  · intro rt hrt hfetch
    have hcase : rt ∈ fetchCases := by rcases hrt with e | e <;> subst e <;> decide
    simp only [runImport, hcase, if_true, hfetch, writeLines]
  · intro rt hrt
    simp only [runImport, hrt, if_false]

/-- C10, as amended, at a WAF package "p1" and at the type "cloudflare_dog",
which has no case. -/
theorem runImport_switch_and_table_witness :
    runImport ⟨"", "z", "terraform import", "r"⟩
        ⟨fun _ => .ok [.object [("id", .string "p1")]], fun s => "\"" ++ s ++ "\""⟩
        "cloudflare_waf_package" =
      ⟨"", .fatal "cloudflare_waf_package does not have an import format defined"⟩ ∧
    runImport ⟨"", "z", "terraform import", "r"⟩
        ⟨fun _ => .ok [.object [("id", .string "p1")]], fun s => "\"" ++ s ++ "\""⟩
        "cloudflare_dog" =
      ⟨"\"cloudflare_dog\" is not yet supported for state import", .returned⟩ :=
  ⟨(runImport_switch_and_table ⟨"", "z", "terraform import", "r"⟩
      ⟨fun _ => .ok [.object [("id", .string "p1")]], fun s => "\"" ++ s ++ "\""⟩).2.2.2.2.1
      "cloudflare_waf_package" (Or.inr rfl) _ _ "p1" rfl rfl,
   (runImport_switch_and_table ⟨"", "z", "terraform import", "r"⟩
      ⟨fun _ => .ok [.object [("id", .string "p1")]], fun s => "\"" ++ s ++ "\""⟩).2.2.2.2.2.2
      "cloudflare_dog" (by decide)⟩

/-- C10 as stated fails: a logpush job whose "id" field is not a JSON string
(the case leaves one element) makes the run panic on the type assertion before
`buildCompositeID` is called; the run does not end in the fatal error. -/
theorem runImport_switch_and_table_counterexample :
    runImport ⟨"", "z", "terraform import", "r"⟩
        ⟨fun _ => .ok [.object [("id", .other)]], fun s => s⟩ "cloudflare_logpush_job" =
      ⟨"", .panicked⟩ ∧
    (∀ msg, Exit.panicked ≠ Exit.fatal msg) :=
  ⟨rfl, fun _ h => Exit.noConfusion h⟩

/-! ## The order of the pairs given to the replacer -/

/-- The first element of a list that satisfies `P` is the one that stands
before every other element satisfying `P`. -/
theorem find?_first (P : String × String → Bool) (x : String × String) :
    ∀ l : List (String × String), x ∈ l → P x = true →
      (∀ y ∈ l, P y = true → y ≠ x → l.indexOf x < l.indexOf y) →
      l.find? P = some x := by
  intro l
  induction l with
  | nil => intro h; simp at h
  | cons h t ih =>
    intro hx hP hfirst
    by_cases e : h = x
    · subst e
      simp [List.find?, hP]
    · have hPh : P h = false := by
        by_contra hc
        have := hfirst h (List.mem_cons_self _ _) (by simpa using hc) e
        simp [List.indexOf_cons] at this
      have hxt : x ∈ t := by
        rcases List.mem_cons.1 hx with r | r
        · exact absurd r.symm e
        · exact r
      simp only [List.find?, hPh]
      apply ih hxt hP
      intro y hy hPy hne
      have := hfirst y (List.mem_cons_of_mem _ hy) hPy hne
      have hhy : h ≠ y := by
        intro e2
        rw [e2, hPy] at hPh
        cases hPh
      have e1 : (h == x) = false := by simpa using e
      have e2 : (h == y) = false := by simpa using hhy
      simp only [List.indexOf_cons, e1, e2, cond_false] at this
      omega

/-- Two texts that both begin the same text: one begins the other. -/
theorem isPrefixOf_comparable (a b : String) (s : List Char)
    (ha : a.data.isPrefixOf s = true) (hb : b.data.isPrefixOf s = true) :
    a.data <+: b.data ∨ b.data <+: a.data := by
  rw [List.isPrefixOf_iff_prefix] at ha hb
  exact List.prefix_or_prefix_of_prefix ha hb

/-- Any order of the five pairs in which the pairs of ":identifier_type" and
":identifier_value" stand before the pair of ":id" gives the lookup of
`buildCompositeID`. -/
theorem lookup_ordered (cfg : Config) (rid : String) (ps : List (String × String))
    (hperm : ps.Perm (compositeReplacer cfg rid))
    (h1 : ps.indexOf (":identifier_type", identiferType cfg) < ps.indexOf (":id", rid))
    (h2 : ps.indexOf (":identifier_value", identiferValue cfg) < ps.indexOf (":id", rid))
    (s : List Char) :
    replacerLookup ps s = replacerLookup (compositeReplacer cfg rid) s := by
  have hmem : ∀ y, y ∈ ps ↔ y = (":identifier_type", identiferType cfg) ∨
      y = (":identifier_value", identiferValue cfg) ∨ y = (":zone_id", cfg.zoneID) ∨
      y = (":account_id", cfg.accountID) ∨ y = (":id", rid) := by
    intro y
    rw [hperm.mem_iff]
    simp [compositeReplacer]
  unfold replacerLookup
  by_cases b1 : (":identifier_type" : String).data.isPrefixOf s = true
  · have hr : (compositeReplacer cfg rid).find? (fun p => p.1.data.isPrefixOf s) =
        some (":identifier_type", identiferType cfg) := by
      simp [compositeReplacer, List.find?, b1]
    rw [hr]
    apply find?_first _ _ _ ((hmem _).2 (Or.inl rfl)) b1
    intro y hy hPy hne
    rcases (hmem y).1 hy with e | e | e | e | e <;> subst e
    · exact absurd rfl hne
    · exact absurd (isPrefixOf_comparable ":identifier_type" ":identifier_value" s b1 hPy) (by decide)
    · exact absurd (isPrefixOf_comparable ":identifier_type" ":zone_id" s b1 hPy) (by decide)
    · exact absurd (isPrefixOf_comparable ":identifier_type" ":account_id" s b1 hPy) (by decide)
    · exact h1
  by_cases b2 : (":identifier_value" : String).data.isPrefixOf s = true
  · have hr : (compositeReplacer cfg rid).find? (fun p => p.1.data.isPrefixOf s) =
        some (":identifier_value", identiferValue cfg) := by
      simp [compositeReplacer, List.find?, b1, b2]
    rw [hr]
    apply find?_first _ _ _ ((hmem _).2 (Or.inr (Or.inl rfl))) b2
    intro y hy hPy hne
    rcases (hmem y).1 hy with e | e | e | e | e <;> subst e
    · exact absurd hPy b1
    · exact absurd rfl hne
    · exact absurd (isPrefixOf_comparable ":identifier_value" ":zone_id" s b2 hPy) (by decide)
    · exact absurd (isPrefixOf_comparable ":identifier_value" ":account_id" s b2 hPy) (by decide)
    · exact h2
  by_cases b3 : (":zone_id" : String).data.isPrefixOf s = true
  · have hr : (compositeReplacer cfg rid).find? (fun p => p.1.data.isPrefixOf s) =
        some (":zone_id", cfg.zoneID) := by
      simp [compositeReplacer, List.find?, b1, b2, b3]
    rw [hr]
    apply find?_first _ _ _ ((hmem _).2 (Or.inr (Or.inr (Or.inl rfl)))) b3
    intro y hy hPy hne
    rcases (hmem y).1 hy with e | e | e | e | e <;> subst e
    · exact absurd hPy b1
    · exact absurd hPy b2
    · exact absurd rfl hne
    · exact absurd (isPrefixOf_comparable ":zone_id" ":account_id" s b3 hPy) (by decide)
    · exact absurd (isPrefixOf_comparable ":zone_id" ":id" s b3 hPy) (by decide)
  by_cases b4 : (":account_id" : String).data.isPrefixOf s = true
  · have hr : (compositeReplacer cfg rid).find? (fun p => p.1.data.isPrefixOf s) =
        some (":account_id", cfg.accountID) := by
      simp [compositeReplacer, List.find?, b1, b2, b3, b4]
    rw [hr]
    apply find?_first _ _ _ ((hmem _).2 (Or.inr (Or.inr (Or.inr (Or.inl rfl))))) b4
    intro y hy hPy hne
    rcases (hmem y).1 hy with e | e | e | e | e <;> subst e
    · exact absurd hPy b1
    · exact absurd hPy b2
    · exact absurd hPy b3
    · exact absurd rfl hne
    · exact absurd (isPrefixOf_comparable ":account_id" ":id" s b4 hPy) (by decide)
  by_cases b5 : (":id" : String).data.isPrefixOf s = true
  · have hr : (compositeReplacer cfg rid).find? (fun p => p.1.data.isPrefixOf s) =
        some (":id", rid) := by
      simp [compositeReplacer, List.find?, b1, b2, b3, b4, b5]
    rw [hr]
    apply find?_first _ _ _ ((hmem _).2 (Or.inr (Or.inr (Or.inr (Or.inr rfl))))) b5
    intro y hy hPy hne
    rcases (hmem y).1 hy with e | e | e | e | e <;> subst e
    · exact absurd hPy b1
    · exact absurd hPy b2
    · exact absurd hPy b3
    · exact absurd hPy b4
    · exact absurd rfl hne
  · have hr : (compositeReplacer cfg rid).find? (fun p => p.1.data.isPrefixOf s) = none := by
      simp [compositeReplacer, List.find?, b1, b2, b3, b4, b5]
    rw [hr, List.find?_eq_none]
    intro y hy
    rcases (hmem y).1 hy with e | e | e | e | e <;> subst e
    · exact b1
    · exact b2
    · exact b3
    · exact b4
    · exact b5

/-- C8, as amended: the five tokens are not prefix-disjoint, ":id" begins both
":identifier_type" and ":identifier_value"; the replacer takes the pair given
first, so the result is the same for every order of the five pairs in which
the pairs of ":identifier_type" and ":identifier_value" stand before the pair
of ":id", as they do in `buildCompositeID`: such an order replaces every text
as the order of the source does, and gives the line of `buildCompositeID` for
every resource type of the format table. -/
theorem replacer_order_independent (cfg : Config) (rid : String)
    (ps : List (String × String))
    (hperm : ps.Perm (compositeReplacer cfg rid))
    (h1 : ps.indexOf (":identifier_type", identiferType cfg) < ps.indexOf (":id", rid))
    (h2 : ps.indexOf (":identifier_value", identiferValue cfg) < ps.indexOf (":id", rid)) :
    (∀ s, replacerReplace ps s = replacerReplace (compositeReplacer cfg rid) s) ∧
    (∀ rt tmpl, importFormat rt = some tmpl →
      buildCompositeID cfg rt rid = .ok (replacerReplace ps (rawLine cfg rt rid tmpl))) := by
  have hall : ∀ s, replacerReplace ps s = replacerReplace (compositeReplacer cfg rid) s := by
    intro s
    unfold replacerReplace
    rw [replaceFrom_congr (lookup_ordered cfg rid ps hperm h1 h2)]
  refine ⟨hall, ?_⟩
  intro rt tmpl h
  rw [buildCompositeID_of_format h, hall]

/-- C8, as amended, at the order longest token first, for an access rule "r1"
of account "acc1". -/
theorem replacer_order_independent_witness :
    [(":identifier_value", "acc1"), (":identifier_type", "account"), (":account_id", "acc1"),
        (":zone_id", ""), (":id", "r1")].Perm
      (compositeReplacer ⟨"acc1", "", "terraform import", "r"⟩ "r1") ∧
    buildCompositeID ⟨"acc1", "", "terraform import", "r"⟩ "cloudflare_access_rule" "r1" =
      .ok (replacerReplace
        [(":identifier_value", "acc1"), (":identifier_type", "account"), (":account_id", "acc1"),
          (":zone_id", ""), (":id", "r1")]
        (rawLine ⟨"acc1", "", "terraform import", "r"⟩ "cloudflare_access_rule" "r1"
          ":identifier_type/:identifier_value/:id")) :=
  ⟨by decide,
   (replacer_order_independent ⟨"acc1", "", "terraform import", "r"⟩ "r1"
      [(":identifier_value", "acc1"), (":identifier_type", "account"), (":account_id", "acc1"),
        (":zone_id", ""), (":id", "r1")]
      (by decide) (by decide) (by decide)).2
      "cloudflare_access_rule" ":identifier_type/:identifier_value/:id" rfl⟩

/-- C8 as stated fails: ":id" is a prefix of ":identifier_type", and with the
pair of ":id" given first the template of an access rule is replaced to
"r1entifier_type/r1entifier_value/r1", not to "account/acc1/r1" as in
`buildCompositeID`. -/
theorem replacer_order_independent_counterexample :
    ":id".data <+: ":identifier_type".data ∧
    [(":id", "r1"), (":identifier_type", "account"), (":identifier_value", "acc1"),
        (":zone_id", ""), (":account_id", "acc1")].Perm
      (compositeReplacer ⟨"acc1", "", "terraform import", "r"⟩ "r1") ∧
    replacerReplace
        [(":id", "r1"), (":identifier_type", "account"), (":identifier_value", "acc1"),
          (":zone_id", ""), (":account_id", "acc1")]
        (rawLine ⟨"acc1", "", "terraform import", "r"⟩ "cloudflare_access_rule" "r1"
          ":identifier_type/:identifier_value/:id") =
      "terraform import cloudflare_access_rule.r_r1 r1entifier_type/r1entifier_value/r1\n" ∧
    buildCompositeID ⟨"acc1", "", "terraform import", "r"⟩ "cloudflare_access_rule" "r1" =
      .ok "terraform import cloudflare_access_rule.r_r1 account/acc1/r1\n" ∧
    "terraform import cloudflare_access_rule.r_r1 r1entifier_type/r1entifier_value/r1\n" ≠
      "terraform import cloudflare_access_rule.r_r1 account/acc1/r1\n" :=
  ⟨by decide, by decide, rfl, rfl, by decide⟩

end CfTerraforming
